import Mathlib

/-
Shallow embedding of the forecasting core of the `arqtic` repository
(`src/forecast/predict.py` and `src/dashboard/components/forecast_tab.py`):
multi-model NWP ensemble aggregation, rolling bias correction, naive
baselines, and the comparative accuracy evaluator.

Conventions of the embedding:
* dates are day numbers (`Nat`); `pd.to_datetime(...).dt.normalize()` is
  the identity on such day numbers;
* numeric values are rationals (`Rat`); a pandas `NaN` cell is `none` in
  an `Option Rat` column, and pandas `skipna` aggregation becomes
  `List.filterMap id` before averaging;
* the final `round(x, 2)` / `round(x, 3)` display rounding of the report
  (Python float rounding) is a floating-point presentation concern and is
  not modelled: report fields carry the exact rational values, `none`
  standing for a `NaN` float.
-/

namespace Arqtic

/-- A daily series as produced by one source: (date, value) pairs where a
missing (NaN) value is `none`. -/
abbrev Series := List (Nat × Option Rat)

/-- Mean of a list of rationals, `none` on the empty list: this is the
pandas `Series.mean()` (which skips NaN inputs; callers pass the list of
non-missing values) returning NaN on an empty input. -/
def optMean (l : List Rat) : Option Rat :=
  if l = [] then none else some (l.sum / l.length)

/-- Absolute first differences of a list, as produced by
`series.diff().abs().dropna()`: element t is the absolute difference
between consecutive entries t and t-1, so a list of n values yields n-1
differences (the first row of `diff()` is NaN and is dropped). -/
def diffsAbs (l : List Rat) : List Rat :=
  (l.zip l.tail).map fun p => |p.2 - p.1|

/-- Insert a value into a sorted list keeping it sorted (ascending). -/
def insertSorted (x : Rat) : List Rat → List Rat
  | [] => [x]
  | y :: ys => if x ≤ y then x :: y :: ys else y :: insertSorted x ys

/-- Ascending sort of a list of rationals (numpy sorts before taking a
percentile). -/
def sortAsc (l : List Rat) : List Rat :=
  l.foldr insertSorted []

/-- Percentile with linear interpolation, as `np.percentile(a, q)` does:
position (n-1)*q/100 in the ascending sort, interpolating between the two
neighbouring order statistics. -/
def percentileOf (l : List Rat) (q : Rat) : Rat :=
  let s := sortAsc l
  if s = [] then 0
  else
    let n : Rat := (s.length : Rat)
    let pos : Rat := q * (n - 1) / 100
    let lo : Nat := pos.floor.toNat
    let frac : Rat := pos - (lo : Rat)
    let a := s.getD lo 0
    let b := s.getD (lo + 1) a
    a + frac * (b - a)

/-- Population variance (mean squared deviation), the square of
`np.std(members)` (numpy default ddof = 0). `np.std` itself is the square
root of this quantity and is irrational in general, so the embedding
carries its square. -/
def varianceOf (l : List Rat) : Rat :=
  if l = [] then 0
  else
    let μ := l.sum / l.length
    (l.map fun x => (x - μ) ^ 2).sum / l.length

-- ---------------------------------------------------------------------
-- Dashboard ensemble aggregator (`_fetch_ensemble_forecast`,
-- src/dashboard/components/forecast_tab.py lines 66-84)
-- ---------------------------------------------------------------------

/-- One output row of the dashboard ensemble aggregator: per-date mean,
10th/90th percentile and spread across the contributing members.
`spread_sq` is the square of the reported `np.std` spread (see
`varianceOf`). -/
structure EnsembleRow where
  date : Nat
  mean : Rat
  p10 : Rat
  p90 : Rat
  spread_sq : Rat
deriving DecidableEq, Repr

/-- Values contributed at day index i: for each ensemble member series,
its value at position i provided it is present and non-null (the
`values[i] is not None` check in the member loop). -/
def membersAt (members : List (List (Option Rat))) (i : Nat) : List Rat :=
  members.filterMap fun vs => (vs.get? i).join

/-- The member-collection loop of `_fetch_ensemble_forecast`: for each day
index, gather the non-null member values; a day with an empty member list
appends no row (`if members:`), otherwise a row with mean, p10, p90 and
spread over exactly those members is appended. -/
def fetch_ensemble_forecast (dates : List Nat)
    (members : List (List (Option Rat))) : List EnsembleRow :=
  (List.range dates.length).filterMap fun i =>
    match dates.get? i with
    | none => none
    | some d =>
      let ms := membersAt members i
      if ms.isEmpty then none
      else
        some ⟨d, ms.sum / ms.length, percentileOf ms 10, percentileOf ms 90,
              varianceOf ms⟩

-- ---------------------------------------------------------------------
-- NWP history aggregator (`fetch_nwp_history`,
-- src/forecast/predict.py lines 92-143)
-- ---------------------------------------------------------------------

/-- One row of the merged NWP history frame: the date, the per-model
values in model order (missing where a model does not cover the date),
and the adaptive `ensemble_mean` column. -/
structure NwpRow where
  date : Nat
  models : List (Option Rat)
  ensemble_mean : Option Rat
deriving DecidableEq, Repr

/-- Value of a model frame at a date: the value stored for that date, or
`none` when the frame has no row for it (outer-merge fill). -/
def lookupDate (f : Series) (d : Nat) : Option Rat :=
  match f.find? fun p => p.1 = d with
  | some p => p.2
  | none => none

/-- All dates appearing in any successfully fetched model frame (the key
set of the iterated outer merge on `date`). -/
def allDatesOf (frames : List Series) : List Nat :=
  (frames.map fun f => f.map fun p => p.1).flatten

/-- Row-wise adaptive mean `result[model_cols].mean(axis=1)`: the mean of
the non-missing model values of the row, NaN (`none`) when every model
value is missing. -/
def rowMean (vals : List (Option Rat)) : Option Rat :=
  optMean (vals.filterMap id)

/-- Embedding of `fetch_nwp_history`, parameterised by the outcome of the
four per-model fetches (`none` = the request failed and the model is
skipped by the `except: continue`). The successful frames are
outer-merged on `date` — pandas sorts the keys of an outer join, so the
result is one row per distinct date in ascending order, each model
column holding the model's value where present — and the adaptive
`ensemble_mean` column is added. Frames carry one row per date, as the
daily API delivers them. With no successful fetch the result is the
empty frame. -/
def fetch_nwp_history (fetches : List (Option Series)) : List NwpRow :=
  let frames := fetches.filterMap id
  if frames.isEmpty then []
  else
    let dates := allDatesOf frames
    let maxD := dates.foldl max 0
    let sorted := (List.range (maxD + 1)).filter fun d => d ∈ dates
    sorted.map fun d =>
      let vals := frames.map fun f => lookupDate f d
      ⟨d, vals, rowMean vals⟩

-- ---------------------------------------------------------------------
-- Baselines (`compute_baselines`, src/forecast/predict.py lines 146-162)
-- ---------------------------------------------------------------------

/-- Persistence baseline MAE: drop the missing observations, then the
mean of `temp.diff().abs().dropna()` — the absolute differences of
consecutive retained values. NaN (`none`) when fewer than two values
remain. -/
def persistence_mae (daily : Series) : Option Rat :=
  optMean (diffsAbs (daily.filterMap fun p => p.2))

/-- Rows of the series sharing the day-of-year of date d. The calendar
map `dt.dayofyear` is abstracted as the function `doy`. -/
def doyGroup (doy : Nat → Nat) (daily : Series) (d : Nat) : Series :=
  daily.filter fun p => doy p.1 = doy d

/-- Non-missing observations in the day-of-year group of date d. -/
def doyGroupVals (doy : Nat → Nat) (daily : Series) (d : Nat) : List Rat :=
  (doyGroup doy daily d).filterMap fun p => p.2

/-- The `groupby("doy")[...].transform("mean")` value at date d: the mean
of the non-missing observations of d's day-of-year group, NaN when the
group holds no non-missing observation. -/
def doy_transform_mean (doy : Nat → Nat) (daily : Series) (d : Nat) :
    Option Rat :=
  optMean (doyGroupVals doy daily d)

/-- Climatology baseline MAE: mean of `(value - doy_mean).abs()` with NaN
rows skipped — a row contributes only when its own value and its group
mean are both defined. -/
def climatology_mae (doy : Nat → Nat) (daily : Series) : Option Rat :=
  optMean (daily.filterMap fun p =>
    match p.2, doy_transform_mean doy daily p.1 with
    | some v, some μ => some |v - μ|
    | _, _ => none)

/-- Embedding of `compute_baselines`: the pair
(persistence_mae, climatology_mae). The code rounds both to two decimals
for display; see the file header. -/
def compute_baselines (doy : Nat → Nat) (daily : Series) :
    Option Rat × Option Rat :=
  (persistence_mae daily, climatology_mae doy daily)

-- ---------------------------------------------------------------------
-- Comparative evaluator (`evaluate_all_models`,
-- src/forecast/predict.py lines 165-218)
-- ---------------------------------------------------------------------

/-- One row of `merged`: inner join of the observation series with the
NWP history on `date`, already restricted by
`.dropna(subset=["ensemble_mean"])`, so `em` is always present, while the
observation `temp` may still be missing. Rows are kept in ascending date
order (`sort_values("date")`); the observation series has unique dates
(one value per calendar day). -/
structure MergedRow where
  date : Nat
  temp : Option Rat
  models : List (Option Rat)
  em : Rat
deriving DecidableEq, Repr

/-- The `merged` frame: for each NWP row (already date-sorted) whose date
also occurs in the observation series and whose `ensemble_mean` is
present, the combined row. -/
def mergedOf (daily : Series) (nwp : List NwpRow) : List MergedRow :=
  nwp.filterMap fun row =>
    match daily.find? fun p => p.1 = row.date, row.ensemble_mean with
    | some p, some em => some ⟨row.date, p.2, row.models, em⟩
    | _, _ => none

/-- The error series `error = merged["ensemble_mean"] -
merged["temperature_2m_max"]`, per row; NaN where the observation is
missing. -/
def errorsOf (m : List MergedRow) : List (Option Rat) :=
  m.map fun r => r.temp.map fun t => r.em - t

/-- The un-shifted rolling statistic
`error.rolling(14, min_periods=7).mean()` at row index j: the mean of the
non-missing errors among rows j-13..j, produced only when at least 7 such
errors exist. -/
def rolling_mean_14 (e : List (Option Rat)) (j : Nat) : Option Rat :=
  let vals := ((e.take (j + 1)).drop (j + 1 - 14)).filterMap id
  if 7 ≤ vals.length then some (vals.sum / vals.length) else none

/-- The code's rolling bias
`error.rolling(14, min_periods=7).mean().shift(1)` at row index i: the
shift moves each windowed mean one row later, so index 0 is NaN and index
j+1 carries the window ending at j. -/
def rolling_bias (e : List (Option Rat)) : Nat → Option Rat
  | 0 => none
  | j + 1 => rolling_mean_14 e j

/-- Rolling bias as the specification words it: for row t, the mean of
the error values over the (up to) 14 most recent rows strictly preceding
t, defined only when at least 7 non-missing errors lie in that window. -/
def rolling_bias_spec (e : List (Option Rat)) (t : Nat) : Option Rat :=
  let vals := ((e.take t).drop (t - 14)).filterMap id
  if 7 ≤ vals.length then some (vals.sum / vals.length) else none

/-- The `corrected = merged["ensemble_mean"] - rolling_bias` column at
row index i: NaN exactly where the rolling bias is NaN. -/
def correctedAt (m : List MergedRow) (i : Nat) : Option Rat :=
  match m.get? i with
  | some r => (rolling_bias (errorsOf m) i).map fun b => r.em - b
  | none => none

/-- The `valid_corrected` frame as (corrected, observation) pairs: rows
where both the observation (`dropna(subset=["temperature_2m_max"])`) and
the corrected value (`dropna(subset=["corrected"])`) are present. -/
def validCorrected (m : List MergedRow) : List (Rat × Rat) :=
  (List.range m.length).filterMap fun i =>
    match m.get? i, correctedAt m i with
    | some r, some c => r.temp.map fun t => (c, t)
    | _, _ => none

/-- Per-model MAE entries, by model column index: `none` when the model
has no row with a value (`len(valid) > 0` fails, key absent from the
dict); otherwise the mean of the absolute errors over rows where both the
model value and the observation are present (`some none` is the NaN mean
when the model's rows all lack an observation). -/
def model_maes (m : List MergedRow) (nModels : Nat) :
    List (Option (Option Rat)) :=
  (List.range nModels).map fun k =>
    let valid := m.filter fun r => ((r.models.get? k).join).isSome
    if valid.isEmpty then none
    else some (optMean (valid.filterMap fun r =>
      match (r.models.get? k).join, r.temp with
      | some v, some t => some |v - t|
      | _, _ => none))

/-- The comparative report dict of `evaluate_all_models`. Fields carry
the exact rational values; the code additionally rounds each float to 2-3
decimals for display (see the file header). `prophet_mae` is the literal
the code places in the dict. -/
structure Report where
  ensemble_corrected_mae : Option Rat
  ensemble_raw_mae : Option Rat
  maes_by_model : List (Option (Option Rat))
  nwp_bias : Option Rat
  persistence_mae : Option Rat
  climatology_mae : Option Rat
  prophet_mae : Rat
  n_days : Nat
deriving DecidableEq, Repr

/-- The report built by `evaluate_all_models` once the NWP frame is known
to be non-empty. -/
def buildReport (doy : Nat → Nat) (daily : Series) (nwp : List NwpRow) :
    Report :=
  let m := mergedOf daily nwp
  let nModels := (nwp.head?.map fun r => r.models.length).getD 0
  let b := compute_baselines doy daily
  { ensemble_corrected_mae :=
      optMean ((validCorrected m).map fun p => |p.1 - p.2|)
    ensemble_raw_mae :=
      optMean (m.filterMap fun r => r.temp.map fun t => |r.em - t|)
    maes_by_model := model_maes m nModels
    nwp_bias := optMean ((errorsOf m).filterMap id)
    persistence_mae := b.1
    climatology_mae := b.2
    prophet_mae := 399 / 100
    n_days := (validCorrected m).length }

/-- Embedding of `evaluate_all_models`, parameterised by the day-of-year
map and the outcomes of the per-model NWP fetches: when the fetched NWP
frame is empty the evaluator returns the empty dict (`none`), otherwise
the full report. -/
def evaluate_all_models (doy : Nat → Nat) (daily : Series)
    (fetches : List (Option Series)) : Option Report :=
  let nwp := fetch_nwp_history fetches
  if nwp.isEmpty then none else some (buildReport doy daily nwp)

-- ---------------------------------------------------------------------
-- Seasonal extrapolator (`make_forecast`,
-- src/forecast/predict.py lines 29-58)
-- ---------------------------------------------------------------------

/-- One output row of the seasonal forecast:
`forecast[["ds", "yhat", "yhat_lower", "yhat_upper", "trend", "yearly"]]`. -/
structure ForecastRow where
  ds : Nat
  yhat : Rat
  yhat_lower : Rat
  yhat_upper : Rat
  trend : Rat
  yearly : Rat
deriving DecidableEq, Repr

/-- Prediction of the seasonal model for one date, without the date
column. -/
structure SeasonalPred where
  yhat : Rat
  yhat_lower : Rat
  yhat_upper : Rat
  trend : Rat
  yearly : Rat
deriving DecidableEq, Repr

/-- Modelled from the spec: the fitted external seasonal decomposition
model (Prophet's `fit`/`predict`, third-party library code absent from
the repository). Per the contract of spec sections 4.4 and 9 it assigns
every date a point estimate with lower/upper bounds of a 95% interval
containing the point estimate, plus trend and yearly components; any
library satisfying this contract may stand behind `make_forecast`. -/
structure SeasonalModel where
  predict : Nat → SeasonalPred
  lower_le : ∀ d, (predict d).yhat_lower ≤ (predict d).yhat
  le_upper : ∀ d, (predict d).yhat ≤ (predict d).yhat_upper

/-- Last date of the training history (0 for an empty history). -/
def lastDate (hist : List Nat) : Nat :=
  hist.foldl max 0

/-- Modelled from the spec: Prophet's `make_future_dataframe(periods)`
(external library code absent from the repository) — the training
history's dates followed by exactly `periods` consecutive future days
after the last training date (`include_history` defaults to true). -/
def make_future_dataframe (hist : List Nat) (periods : Nat) : List Nat :=
  hist ++ (List.range periods).map fun k => lastDate hist + k + 1

/-- Embedding of `make_forecast`: drop rows with a missing metric value
(`dropna(subset=["y"])`), fit the seasonal model, predict over the
history-plus-`periods` future dates, and keep the six output columns. -/
def make_forecast (model : SeasonalModel) (daily : Series)
    (periods : Nat) : List ForecastRow :=
  let hist := daily.filterMap fun p => p.2.map fun _ => p.1
  (make_future_dataframe hist periods).map fun d =>
    let pr := model.predict d
    ⟨d, pr.yhat, pr.yhat_lower, pr.yhat_upper, pr.trend, pr.yearly⟩

-- ---------------------------------------------------------------------
-- Helper lemmas
-- ---------------------------------------------------------------------

lemma optMean_eq_none_iff (l : List Rat) : optMean l = none ↔ l = [] := by
  unfold optMean
  split <;> simp_all

lemma optMean_replicate (c : Rat) (n : Nat) (hn : n ≠ 0) :
    optMean (List.replicate n c) = some c := by
  unfold optMean
  rw [if_neg (by simp [List.replicate_eq_nil_iff, hn])]
  congr 1
  rw [List.sum_replicate, List.length_replicate, nsmul_eq_mul,
    mul_div_cancel_left₀]
  exact Nat.cast_ne_zero.mpr hn

lemma optMean_all_eq (l : List Rat) (c : Rat) (hne : l ≠ [])
    (hall : ∀ x ∈ l, x = c) : optMean l = some c := by
  rw [List.eq_replicate_of_mem hall]
  exact optMean_replicate c l.length (by simpa using hne)

lemma take_eq_of_agree {α : Type} (l1 l2 : List α) (p : Nat)
    (h : ∀ j, j < p → l1.get? j = l2.get? j) : l1.take p = l2.take p := by
  apply List.ext_get?
  intro n
  by_cases hn : n < p
  · rw [List.get?_take hn, List.get?_take hn, h n hn]
  · have h1 : (l1.take p).length ≤ n := by
      have := List.length_take_le p l1
      omega
    have h2 : (l2.take p).length ≤ n := by
      have := List.length_take_le p l2
      omega
    rw [List.get?_eq_none.mpr h1, List.get?_eq_none.mpr h2]

lemma length_filterMap_eq_length_filter {α β : Type} (l : List α)
    (f : α → Option β) :
    (l.filterMap f).length = (l.filter fun x => (f x).isSome).length := by
  induction l with
  | nil => rfl
  | cons x xs ih =>
    cases h : f x <;> simp [List.filterMap_cons, List.filter_cons, h, ih]

lemma foldl_max_init_le (l : List Nat) (a : Nat) : a ≤ l.foldl max a := by
  induction l generalizing a with
  | nil => exact le_refl a
  | cons h t ih => exact le_trans (le_max_left a h) (ih (max a h))

lemma mem_le_foldl_max (l : List Nat) (a : Nat) :
    ∀ x ∈ l, x ≤ l.foldl max a := by
  induction l generalizing a with
  | nil => intro x hx; cases hx
  | cons h t ih =>
    intro x hx
    rcases hx with _ | hx
    · exact le_trans (le_max_right a h) (foldl_max_init_le t (max a h))
    · exact ih (max a h) x (by assumption)

-- ---------------------------------------------------------------------
-- Claim theorems
-- ---------------------------------------------------------------------

/-- C1: no-leakage/causality. For an inner-joined observation-vs-ensemble
series, the rolling bias at row t depends only on error values at rows
strictly before t: if two merged series agree on every row strictly
before t (so that they differ only at rows ≥ t), the rolling bias agrees
at every row ≤ t and the corrected value agrees at every row < t. -/
theorem C1_no_leakage (m1 m2 : List MergedRow) (t : Nat)
    (hAgree : ∀ j, j < t → m1.get? j = m2.get? j) :
    (∀ p, p ≤ t →
      rolling_bias (errorsOf m1) p = rolling_bias (errorsOf m2) p) ∧
    (∀ p, p < t → correctedAt m1 p = correctedAt m2 p) := by
  have herr : ∀ j, j < t → (errorsOf m1).get? j = (errorsOf m2).get? j := by
    intro j hj
    simp only [errorsOf, List.get?_map, hAgree j hj]
  have hbias : ∀ p, p ≤ t →
      rolling_bias (errorsOf m1) p = rolling_bias (errorsOf m2) p := by
    intro p hp
    cases p with
    | zero => rfl
    | succ j =>
      have htake : (errorsOf m1).take (j + 1) = (errorsOf m2).take (j + 1) :=
        take_eq_of_agree _ _ _ fun i hi => herr i (lt_of_lt_of_le hi hp)
      simp only [rolling_bias, rolling_mean_14, htake]
  refine ⟨hbias, ?_⟩
  intro p hp
  unfold correctedAt
  rw [hAgree p hp, hbias p (le_of_lt hp)]

/-- Witness for C1 at a concrete input: two merged series sharing row 0
but differing at row 1 produce the same rolling bias at row 1 and the
same corrected value at row 0. -/
theorem C1_no_leakage_witness :
    rolling_bias (errorsOf [⟨0, some 1, [], 2⟩, ⟨1, some 0, [], 5⟩]) 1 =
      rolling_bias (errorsOf [⟨0, some 1, [], 2⟩, ⟨1, some 9, [], 9⟩]) 1 ∧
    correctedAt [⟨0, some 1, [], 2⟩, ⟨1, some 0, [], 5⟩] 0 =
      correctedAt [⟨0, some 1, [], 2⟩, ⟨1, some 9, [], 9⟩] 0 := by
  have h := C1_no_leakage [⟨0, some 1, [], 2⟩, ⟨1, some 0, [], 5⟩]
    [⟨0, some 1, [], 2⟩, ⟨1, some 9, [], 9⟩] 1
    (by intro j hj; rcases Nat.lt_one_iff.mp hj with rfl; rfl)
  exact ⟨h.1 1 le_rfl, h.2 0 Nat.zero_lt_one⟩

/-- C2: the bias-correction mechanism. The code's rolling statistic
`error.rolling(14, min_periods=7).mean().shift(1)` coincides at every row
with the specification's description (mean of the up-to-14 most recent
errors strictly preceding the row, requiring at least 7 present values);
the `valid_corrected` rows are exactly the rows where that rolling bias
and the observation are both defined, each carrying
ensemble_mean - rolling_bias; and the corrected MAE of the report is the
mean over exactly those rows (rows with an undefined bias are excluded
rather than treated as zero-corrected). -/
theorem C2_bias_mechanism :
    (∀ (e : List (Option Rat)) (t : Nat),
      rolling_bias e t = rolling_bias_spec e t) ∧
    (∀ m : List MergedRow, validCorrected m =
      (List.range m.length).filterMap fun i =>
        match m.get? i, rolling_bias_spec (errorsOf m) i with
        | some r, some b => r.temp.map fun t => (r.em - b, t)
        | _, _ => none) ∧
    (∀ (doy : Nat → Nat) (daily : Series) (nwp : List NwpRow),
      (buildReport doy daily nwp).ensemble_corrected_mae =
        optMean ((validCorrected (mergedOf daily nwp)).map
          fun p => |p.1 - p.2|) ∧
      (buildReport doy daily nwp).n_days =
        (validCorrected (mergedOf daily nwp)).length) := by
  have hspec : ∀ (e : List (Option Rat)) (t : Nat),
      rolling_bias e t = rolling_bias_spec e t := by
    intro e t
    cases t with
    | zero => simp [rolling_bias, rolling_bias_spec]
    | succ j => rfl
  refine ⟨hspec, ?_, fun doy daily nwp => ⟨rfl, rfl⟩⟩
  intro m
  unfold validCorrected
  apply List.filterMap_congr
  intro i _
  unfold correctedAt
  rw [hspec (errorsOf m) i]
  cases m.get? i with
  | none => rfl
  | some r =>
    cases rolling_bias_spec (errorsOf m) i with
    | none => rfl
    | some b => rfl

/-- C3: adaptive ensemble averaging. An absent (missing) model value
contributes nothing to the row mean — inserting a missing entry anywhere
in a row leaves the adaptive mean unchanged — and on the three-model
example A = [10,12,14], B = [11,NA,15], C = [9,13,NA] both aggregators
produce the ensemble means [10, 12.5, 14.5]. -/
theorem C3_adaptive_averaging :
    (∀ l1 l2 : List (Option Rat),
      rowMean (l1 ++ none :: l2) = rowMean (l1 ++ l2)) ∧
    ((fetch_nwp_history
        [some [(0, some 10), (1, some 12), (2, some 14)],
         some [(0, some 11), (1, none), (2, some 15)],
         some [(0, some 9), (1, some 13), (2, none)]]).map
      (fun r => r.ensemble_mean) =
      [some 10, some (25 / 2), some (29 / 2)]) ∧
    ((fetch_ensemble_forecast [0, 1, 2]
        [[some 10, some 12, some 14], [some 11, none, some 15],
         [some 9, some 13, none]]).map (fun r => r.mean) =
      [10, 25 / 2, 29 / 2]) := by
  refine ⟨?_, by with_unfolding_all decide, by with_unfolding_all decide⟩
  intro l1 l2
  simp [rowMean, List.filterMap_append]

/-- C4 counterexample: the claim that a zero-contributor date produces no
row at all fails on `fetch_nwp_history`. A model frame listing a date
with a missing value makes that date appear in the outer merge with every
model column missing, and the aggregate surfaces it as a row whose
`ensemble_mean` is NaN. -/
theorem C4_counterexample :
    fetch_nwp_history [some [(0, none)]] =
      [{ date := 0, models := [none], ensemble_mean := none }] ∧
    (fetch_nwp_history [some [(0, none)]]).length ≠ 0 := by
  decide

/-- C4 amended: in the dashboard aggregator a date with zero non-missing
members produces no row (the output has exactly one row per day index
with a non-empty member list); in `fetch_nwp_history` a date listed by no
model produces no row, while a surfaced row's `ensemble_mean` is missing
exactly when all of its model values are missing (it is NaN there, never
a spurious 0, and `evaluate_all_models` later drops such rows). -/
theorem C4_zero_member_dates :
    (∀ (dates : List Nat) (members : List (List (Option Rat))),
      (fetch_ensemble_forecast dates members).length =
        ((List.range dates.length).filter
          fun i => !(membersAt members i).isEmpty).length) ∧
    (∀ fetches : List (Option Series), ∀ row ∈ fetch_nwp_history fetches,
      (row.ensemble_mean = none ↔ row.models.filterMap id = [])) ∧
    (∀ (fetches : List (Option Series)) (d : Nat),
      d ∉ allDatesOf (fetches.filterMap id) →
      d ∉ (fetch_nwp_history fetches).map fun r => r.date) := by
  refine ⟨?_, ?_, ?_⟩
  · intro dates members
    unfold fetch_ensemble_forecast
    rw [length_filterMap_eq_length_filter]
    congr 1
    apply List.filter_congr
    intro i hi
    have h1 : i < dates.length := List.mem_range.mp hi
    cases hq : dates.get? i with
    | none =>
      exact absurd (List.get?_eq_none.mp hq) (by omega)
    | some d =>
      by_cases he : (membersAt members i).isEmpty <;> simp [hq, he]
  · intro fetches row hrow
    unfold fetch_nwp_history at hrow
    by_cases hemp : (fetches.filterMap id).isEmpty
    · rw [if_pos hemp] at hrow
      cases hrow
    · rw [if_neg hemp, List.mem_map] at hrow
      obtain ⟨d, _, rfl⟩ := hrow
      simp [rowMean, optMean_eq_none_iff]
  · intro fetches d hd hmem
    unfold fetch_nwp_history at hmem
    by_cases hemp : (fetches.filterMap id).isEmpty
    · rw [if_pos hemp] at hmem
      cases hmem
    · rw [if_neg hemp, List.map_map, List.mem_map] at hmem
      obtain ⟨d', hd', rfl⟩ := hmem
      exact hd (of_decide_eq_true (List.mem_filter.mp hd').2)

/-- Witness for C4 (amended) at concrete inputs: a surfaced
`fetch_nwp_history` row with an all-missing model list has a missing
ensemble mean, and a date covered by no model frame never appears. -/
theorem C4_zero_member_dates_witness :
    ((⟨0, [none], none⟩ : NwpRow).ensemble_mean = none ↔
      (⟨0, [none], none⟩ : NwpRow).models.filterMap id = []) ∧
    5 ∉ (fetch_nwp_history [some [(0, some 1)]]).map (fun r => r.date) := by
  refine ⟨?_, ?_⟩
  · exact C4_zero_member_dates.2.1 [some [(0, none)]] ⟨0, [none], none⟩
      (by decide)
  · exact C4_zero_member_dates.2.2 [some [(0, some 1)]] 5 (by decide)

/-- C5: total unavailability degrades gracefully. When every model fetch
fails, `fetch_nwp_history` returns the empty frame and
`evaluate_all_models` returns the empty report (`none`) rather than
raising. -/
theorem C5_total_unavailability (doy : Nat → Nat) (daily : Series)
    (fetches : List (Option Series)) (h : ∀ f ∈ fetches, f = none) :
    fetch_nwp_history fetches = [] ∧
    evaluate_all_models doy daily fetches = none := by
  have hf : fetches.filterMap id = [] := by
    rw [List.filterMap_eq_nil]
    intro a ha
    simpa using h a ha
  have h1 : fetch_nwp_history fetches = [] := by
    unfold fetch_nwp_history
    rw [hf]
    rfl
  exact ⟨h1, by unfold evaluate_all_models; rw [h1]; rfl⟩

/-- Witness for C5 at a concrete input: two failed fetches yield the
empty frame and the empty report. -/
theorem C5_total_unavailability_witness :
    fetch_nwp_history [none, none] = [] ∧
    evaluate_all_models id [(0, some 3)] [none, none] = none :=
  C5_total_unavailability id [(0, some 3)] [none, none] (by decide)

/-- C6 counterexample: the claim that a day-of-year group with fewer than
2 observations yields an empty/NaN climatology value fails. A group with
exactly one observation yields that observation as its own group mean
(a numeric value, deviation 0), so a single-row series has climatology
MAE 0, not NaN. -/
theorem C6_counterexample :
    (doyGroupVals id [(0, some 10)] 0).length = 1 ∧
    doy_transform_mean id [(0, some 10)] 0 = some 10 ∧
    climatology_mae id [(0, some 10)] = some 0 := by
  with_unfolding_all decide

/-- C6 amended: the climatology group mean is empty/NaN exactly when the
day-of-year group contains zero non-missing observations; a group with
exactly one observation contributes that observation as its own numeric
mean (hence a zero deviation), and only the all-missing groups fail
silently into the NaN-tolerant aggregate. -/
theorem C6_sparse_group (doy : Nat → Nat) (daily : Series) (d : Nat) :
    (doy_transform_mean doy daily d = none ↔
      doyGroupVals doy daily d = []) ∧
    (∀ v, doyGroupVals doy daily d = [v] →
      doy_transform_mean doy daily d = some v) := by
  constructor
  · simp [doy_transform_mean, optMean_eq_none_iff]
  · intro v hv
    unfold doy_transform_mean
    rw [hv]
    unfold optMean
    rw [if_neg (by simp)]
    simp

/-- Witness for C6 (amended) at a concrete input: the singleton group of
the one-row series has mean equal to its sole observation. -/
theorem C6_sparse_group_witness :
    doy_transform_mean id [(0, some 10)] 0 = some 10 :=
  (C6_sparse_group id [(0, some 10)] 0).2 10 (by decide)

/-- The persistence formula exactly as the specification words it: for a
fully observed value sequence, the mean over day indices t = 1..n-1 of
the absolute difference between the values at t and t-1 (the first day
contributes nothing). -/
def persistence_mae_spec (vs : List Rat) : Option Rat :=
  optMean ((List.range (vs.length - 1)).map
    fun t => |vs.getD (t + 1) 0 - vs.getD t 0|)

/-- A constant observation series of n days with value c. -/
def constSeries (c : Rat) (n : Nat) : Series :=
  (List.range n).map fun i => (i, some c)

/-- An observation series of n days alternating between a and b. -/
def altSeries (a b : Rat) (n : Nat) : Series :=
  (List.range n).map fun i => (i, some (if i % 2 = 0 then a else b))

/-- The bare alternating value sequence underlying `altSeries`. -/
def altVals (a b : Rat) (n : Nat) : List Rat :=
  (List.range n).map fun i => if i % 2 = 0 then a else b

lemma filterMap_snd_of_map {α : Type} (l : List α) (g : α → Nat)
    (f : α → Rat) :
    ((l.map fun x => ((g x, some (f x)) : Nat × Option Rat)).filterMap
      fun p => p.2) = l.map f := by
  induction l with
  | nil => rfl
  | cons x xs ih => simp [ih]

lemma diffsAbs_eq_range (l : List Rat) :
    diffsAbs l = (List.range (l.length - 1)).map
      fun t => |l.getD (t + 1) 0 - l.getD t 0| := by
  induction l with
  | nil => simp [diffsAbs]
  | cons x xs ih =>
    cases xs with
    | nil => simp [diffsAbs]
    | cons y rest =>
      have hx : diffsAbs (x :: y :: rest) =
          |y - x| :: diffsAbs (y :: rest) := by
        simp [diffsAbs]
      rw [hx, ih]
      have hlen2 : (y :: rest).length - 1 = rest.length := by simp
      have hlen : (x :: y :: rest).length - 1 = rest.length + 1 := by simp
      rw [hlen2, hlen, List.range_succ_eq_map, List.map_cons, List.map_map]
      congr 1

lemma diffsAbs_replicate (c : Rat) (n : Nat) :
    diffsAbs (List.replicate n c) = List.replicate (n - 1) 0 := by
  induction n with
  | zero => simp [diffsAbs]
  | succ k ih =>
    cases k with
    | zero => simp [diffsAbs]
    | succ j =>
      have h1 : List.replicate (j + 2) c = c :: c :: List.replicate j c := by
        simp [List.replicate_succ]
      have h2 : diffsAbs (c :: c :: List.replicate j c) =
          |c - c| :: diffsAbs (c :: List.replicate j c) := by
        simp [diffsAbs]
      have h3 : (c :: List.replicate j c) = List.replicate (j + 1) c := by
        simp [List.replicate_succ]
      rw [h1, h2, h3, ih]
      simp [List.replicate_succ]

lemma altVals_succ (a b : Rat) (n : Nat) :
    altVals a b (n + 1) = a :: altVals b a n := by
  unfold altVals
  rw [List.range_succ_eq_map]
  simp only [List.map_cons, List.map_map, Nat.zero_mod, if_pos rfl]
  congr 1
  apply List.map_congr_left
  intro i _
  simp only [Function.comp_apply]
  by_cases h : i % 2 = 0
  · rw [if_pos h, if_neg (by omega)]
  · rw [if_neg h, if_pos (by omega)]

lemma length_altVals (a b : Rat) (n : Nat) : (altVals a b n).length = n := by
  simp [altVals]

lemma length_diffsAbs (l : List Rat) :
    (diffsAbs l).length = l.length - 1 := by
  cases l with
  | nil => simp [diffsAbs]
  | cons x xs => simp [diffsAbs]

lemma mem_diffsAbs_altVals (a b : Rat) (n : Nat) :
    ∀ x ∈ diffsAbs (altVals a b n), x = |a - b| := by
  induction n generalizing a b with
  | zero =>
    intro x hx
    simp [altVals, diffsAbs] at hx
  | succ k ih =>
    rw [altVals_succ]
    cases k with
    | zero =>
      intro x hx
      simp [altVals, diffsAbs] at hx
    | succ j =>
      intro x hx
      rw [altVals_succ] at hx
      have hstep : diffsAbs (a :: b :: altVals a b j) =
          |b - a| :: diffsAbs (b :: altVals a b j) := by
        simp [diffsAbs]
      rw [hstep] at hx
      rcases List.mem_cons.mp hx with hx | hx
      · rw [hx, abs_sub_comm]
      · have hback : (b :: altVals a b j) = altVals b a (j + 1) :=
          (altVals_succ b a j).symm
        rw [hback] at hx
        rw [ih b a x hx, abs_sub_comm]

/-- C7: persistence baseline. For a fully observed series the persistence
MAE of the code equals the specification's mean of |value[t] -
value[t-1]| over all consecutive pairs (the first day excluded); a
constant series of at least two days has persistence MAE 0; a series of
at least two days alternating between a and b has persistence MAE
|a - b|. -/
theorem C7_persistence (a b c : Rat) (n : Nat) (hn : 2 ≤ n) :
    (∀ vs : List Rat,
      persistence_mae (vs.enum.map fun p => (p.1, some p.2)) =
        persistence_mae_spec vs) ∧
    persistence_mae (constSeries c n) = some 0 ∧
    persistence_mae (altSeries a b n) = some |a - b| := by
  refine ⟨?_, ?_, ?_⟩
  · intro vs
    unfold persistence_mae persistence_mae_spec
    rw [filterMap_snd_of_map vs.enum (fun p => p.1) (fun p => p.2),
      List.enum_map_snd, diffsAbs_eq_range]
  · unfold persistence_mae constSeries
    rw [filterMap_snd_of_map (List.range n) (fun i => i) (fun _ => c),
      List.map_const', List.length_range, diffsAbs_replicate]
    exact optMean_replicate 0 (n - 1) (by omega)
  · unfold persistence_mae altSeries
    rw [filterMap_snd_of_map (List.range n) (fun i => i)
      (fun i => if i % 2 = 0 then a else b)]
    have haltv : (List.range n).map (fun i => if i % 2 = 0 then a else b) =
        altVals a b n := rfl
    rw [haltv]
    apply optMean_all_eq _ _ _ (mem_diffsAbs_altVals a b n)
    have hl : (diffsAbs (altVals a b n)).length = n - 1 := by
      rw [length_diffsAbs, length_altVals]
    intro hnil
    rw [hnil] at hl
    simp at hl
    omega

/-- Witness for C7 at concrete inputs: a constant 3-day series has
persistence MAE 0 and the 3-day series alternating between 1 and 4 has
persistence MAE |1 - 4|. -/
theorem C7_persistence_witness :
    persistence_mae (constSeries 5 3) = some 0 ∧
    persistence_mae (altSeries 1 4 3) = some |(1 : Rat) - 4| :=
  ⟨(C7_persistence 1 4 5 3 (by omega)).2.1,
   (C7_persistence 1 4 5 3 (by omega)).2.2⟩

/-- A trivial seasonal model instance, used to witness the seasonal
extrapolator theorem at a concrete input. -/
def constSeasonalModel : SeasonalModel where
  predict := fun _ => ⟨0, 0, 0, 0, 0⟩
  lower_le := fun _ => le_refl 0
  le_upper := fun _ => le_refl 0

/-- C8: seasonal extrapolator horizon. The forecast's dates are exactly
the historical training dates followed by the future extension; exactly
`periods` of its rows are dated strictly after the last training date (so
`periods = 0` yields no rows beyond the last training date and
`periods = 30` yields exactly 30 future-dated rows); and every row
satisfies lower bound ≤ point estimate ≤ upper bound. -/
theorem C8_seasonal_horizon (model : SeasonalModel) (daily : Series)
    (periods : Nat) :
    ((make_forecast model daily periods).map fun r => r.ds) =
      make_future_dataframe
        (daily.filterMap fun p => p.2.map fun _ => p.1) periods ∧
    ((make_forecast model daily periods).filter fun r =>
        lastDate (daily.filterMap fun p => p.2.map fun _ => p.1) <
          r.ds).length = periods ∧
    ∀ r ∈ make_forecast model daily periods,
      r.yhat_lower ≤ r.yhat ∧ r.yhat ≤ r.yhat_upper := by
  refine ⟨?_, ?_, ?_⟩
  · unfold make_forecast
    rw [List.map_map]
    exact List.map_id _
  · unfold make_forecast
    rw [List.filter_map]
    unfold make_future_dataframe
    rw [List.filter_append]
    have hhist : ((daily.filterMap fun p => p.2.map fun _ => p.1).filter
        ((fun r : ForecastRow =>
          decide (lastDate (daily.filterMap fun p => p.2.map fun _ => p.1) <
            r.ds)) ∘ fun d => ⟨d, (model.predict d).yhat,
              (model.predict d).yhat_lower, (model.predict d).yhat_upper,
              (model.predict d).trend, (model.predict d).yearly⟩)) = [] := by
      rw [List.filter_eq_nil_iff]
      intro d hd
      simp only [Function.comp_apply, decide_eq_true_eq, not_lt]
      exact mem_le_foldl_max _ 0 d hd
    have hfut : (((List.range periods).map fun k =>
        lastDate (daily.filterMap fun p => p.2.map fun _ => p.1) + k + 1).filter
        ((fun r : ForecastRow =>
          decide (lastDate (daily.filterMap fun p => p.2.map fun _ => p.1) <
            r.ds)) ∘ fun d => ⟨d, (model.predict d).yhat,
              (model.predict d).yhat_lower, (model.predict d).yhat_upper,
              (model.predict d).trend, (model.predict d).yearly⟩)) =
        ((List.range periods).map fun k =>
          lastDate (daily.filterMap fun p => p.2.map fun _ => p.1) + k + 1) := by
      rw [List.filter_eq_self]
      intro d hd
      obtain ⟨k, _, rfl⟩ := List.mem_map.mp hd
      simp only [Function.comp_apply, decide_eq_true_eq]
      omega
    rw [hhist, hfut]
    simp
  · intro r hr
    obtain ⟨d, _, rfl⟩ := List.mem_map.mp hr
    exact ⟨model.lower_le d, model.le_upper d⟩

/-- Witness for C8 at a concrete input: a one-day training series
extended by 2 periods yields exactly 2 future-dated rows, and a concrete
forecast row satisfies the interval containment. -/
theorem C8_seasonal_horizon_witness :
    ((make_forecast constSeasonalModel [(0, some 1)] 2).filter fun r =>
        lastDate (([(0, some 1)] : Series).filterMap
          fun p => p.2.map fun _ => p.1) < r.ds).length = 2 ∧
    ((⟨2, 0, 0, 0, 0, 0⟩ : ForecastRow).yhat_lower ≤
      (⟨2, 0, 0, 0, 0, 0⟩ : ForecastRow).yhat) := by
  have h := C8_seasonal_horizon constSeasonalModel [(0, some 1)] 2
  refine ⟨h.2.1, ?_⟩
  exact (h.2.2 ⟨2, 0, 0, 0, 0, 0⟩ (by with_unfolding_all decide)).1

/-- C9: the "prophet_mae" report entry is the hard-coded constant 3.99.
Whenever the comparative evaluator produces a report at all — whatever
the observation series — its prophet_mae field is 399/100: the seasonal
model is never evaluated inside `evaluate_all_models`. -/
theorem C9_prophet_hardcoded (doy : Nat → Nat) (daily : Series)
    (fetches : List (Option Series))
    (h : (fetch_nwp_history fetches).isEmpty = false) :
    (evaluate_all_models doy daily fetches).map (fun r => r.prophet_mae) =
      some (399 / 100) := by
  unfold evaluate_all_models
  simp only [h]
  rfl

/-- Witness for C9 at a concrete input: a single one-row model frame and
an unrelated (even empty) observation series yield a report whose
prophet_mae is 399/100. -/
theorem C9_prophet_hardcoded_witness :
    (evaluate_all_models id [] [some [(0, some 1)]]).map
      (fun r => r.prophet_mae) = some (399 / 100) :=
  C9_prophet_hardcoded id [] [some [(0, some 1)]]
    (by with_unfolding_all decide)

lemma filterMap_abs_of_temp (m : List MergedRow)
    (hAll : ∀ r ∈ m, r.temp.isSome) :
    (m.filterMap fun r => r.temp.map fun t => |r.em - t|) =
      m.map fun r => |r.em - r.temp.getD 0| := by
  induction m with
  | nil => rfl
  | cons r rest ih =>
    obtain ⟨t, ht⟩ := Option.isSome_iff_exists.mp
      (hAll r (List.mem_cons_self r rest))
    rw [List.filterMap_cons, List.map_cons, ht]
    simp only [Option.map_some']
    rw [ih fun x hx => hAll x (List.mem_cons_of_mem r hx)]
    simp [ht]

lemma length_filterMap_range_succ_lt {β : Type} (f : Nat → Option β)
    (n : Nat) (h0 : f 0 = none) :
    ((List.range (n + 1)).filterMap f).length < n + 1 := by
  rw [List.range_succ_eq_map]
  simp only [List.filterMap_cons, h0]
  calc (((List.range n).map Nat.succ).filterMap f).length
      ≤ ((List.range n).map Nat.succ).length :=
        List.length_filterMap_le f _
    _ = n := by simp
    _ < n + 1 := by omega

/-- C10: the raw and corrected ensemble MAEs are computed over different
date sets. When all inner-joined observations are present, the raw MAE of
the report averages |ensemble_mean - observation| over every merged row,
while the corrected MAE averages only over the `valid_corrected` rows
(those whose shifted rolling bias is defined), a strictly smaller set
whenever the merged frame is non-empty (its first rows never have 7 prior
errors); and the reported n_days counts only the corrected subset. -/
theorem C10_mae_date_sets (doy : Nat → Nat) (daily : Series)
    (fetches : List (Option Series)) (rep : Report)
    (hAll : ∀ r ∈ mergedOf daily (fetch_nwp_history fetches), r.temp.isSome)
    (hNe : mergedOf daily (fetch_nwp_history fetches) ≠ [])
    (hRep : evaluate_all_models doy daily fetches = some rep) :
    rep.ensemble_raw_mae =
      optMean ((mergedOf daily (fetch_nwp_history fetches)).map
        fun r => |r.em - r.temp.getD 0|) ∧
    rep.ensemble_corrected_mae =
      optMean ((validCorrected (mergedOf daily (fetch_nwp_history fetches))).map
        fun p => |p.1 - p.2|) ∧
    (validCorrected (mergedOf daily (fetch_nwp_history fetches))).length <
      (mergedOf daily (fetch_nwp_history fetches)).length ∧
    rep.n_days =
      (validCorrected (mergedOf daily (fetch_nwp_history fetches))).length := by
  have hnwpne : (fetch_nwp_history fetches).isEmpty = false := by
    cases hq : fetch_nwp_history fetches with
    | nil =>
      exfalso
      apply hNe
      rw [hq]
      rfl
    | cons a l => rfl
  have hrep2 : rep = buildReport doy daily (fetch_nwp_history fetches) := by
    unfold evaluate_all_models at hRep
    simp only [hnwpne, Bool.false_eq_true, if_false] at hRep
    exact (Option.some_inj.mp hRep).symm
  subst hrep2
  refine ⟨?_, rfl, ?_, rfl⟩
  · show optMean ((mergedOf daily (fetch_nwp_history fetches)).filterMap
        fun r => r.temp.map fun t => |r.em - t|) = _
    rw [filterMap_abs_of_temp _ hAll]
  · obtain ⟨r0, rest, hm⟩ := List.exists_cons_of_ne_nil hNe
    rw [hm]
    exact length_filterMap_range_succ_lt _ rest.length rfl

/-- Witness for C10 at a concrete input: a one-row merged frame (one
observation, one model covering its date) has a fully observed non-empty
merged frame, and its corrected subset (empty, since the first row never
has a defined shifted bias) is strictly smaller. -/
theorem C10_mae_date_sets_witness :
    (validCorrected (mergedOf [(0, some 5)]
        (fetch_nwp_history [some [(0, some 7)]]))).length <
      (mergedOf [(0, some 5)]
        (fetch_nwp_history [some [(0, some 7)]])).length ∧
    (buildReport id [(0, some 5)] (fetch_nwp_history [some [(0, some 7)]])).n_days =
      (validCorrected (mergedOf [(0, some 5)]
        (fetch_nwp_history [some [(0, some 7)]]))).length := by
  have h := C10_mae_date_sets id [(0, some 5)] [some [(0, some 7)]]
    (buildReport id [(0, some 5)] (fetch_nwp_history [some [(0, some 7)]]))
    (by with_unfolding_all decide) (by with_unfolding_all decide) rfl
  exact ⟨h.2.2.1, h.2.2.2⟩
